import Mathlib

/-!
Verification of the Person CRUD API (`core/models.py`, `core/views.py`,
`core/urls.py`).

The embedding models the record store and the request handlers shallowly:

* A `Person` row mirrors the model fields of `core/models.py`
  (`name` nullable, `age` nullable, `gender` required, plus the two
  auto-managed timestamps).  Timestamps are natural numbers: the store
  carries a logical clock `now` that advances by one on every write
  request, reflecting that distinct HTTP requests are served at distinct
  wall-clock instants (`auto_now_add` / `auto_now` in `core/models.py`
  stamp the current time on insert resp. on every save).
* `id` is assigned from the store's `nextId` counter, which only grows
  (primary keys are never reused).
* The serializer file `core/serializer.py` is imported by
  `core/views.py` but is not among the sources; its validation is
  modelled from the specification (see `validatePayload`).
* The generic collection route (`AnotherList`, a `ModelViewSet`
  registered under `person2` in `core/urls.py`) adds retrieve, update,
  partial-update and delete with standard resource semantics.
-/

/-- A stored Person row, after `core/models.py`:
`name = CharField(max_length=50, null=True, blank=True)`,
`age = IntegerField(blank=True, null=True)`,
`gender = CharField(max_length=50)`,
`created_at = DateTimeField(auto_now_add=True)`,
`updated_at = DateTimeField(auto_now=True)`. -/
structure Person where
  id : Nat
  name : Option String
  age : Option Int
  gender : String
  created_at : Nat
  updated_at : Nat
deriving DecidableEq

/-- The record store: the Person table, the primary-key counter, and the
logical clock used to stamp `created_at` / `updated_at`. -/
structure Store where
  records : List Person
  nextId : Nat
  now : Nat
deriving DecidableEq

/-- The empty database; Django primary keys start at 1. -/
def Store.empty : Store := { records := [], nextId := 1, now := 1 }

/-- A request body: each field is either present with a value or absent. -/
structure Payload where
  name : Option String
  age : Option Int
  gender : Option String
deriving DecidableEq

/-- Modelled from the spec: `PersonSerializer` lives in
`core/serializer.py`, which is not among the sources; per §4.1 it
"validates against the schema (max-length 50 on `name`, `gender`
required)" and per §3 `gender` "must be present (non-null) for a record
to be considered valid, though the field is not length- or
value-constrained beyond a maximum character count of 50 (also applied
to `name`)".  `allowMissing` is true for partial updates (PATCH), where
absent fields are not errors.  Returns the field-to-message error
pairs. -/
def validatePayload (allowMissing : Bool) (p : Payload) : List (String × String) :=
  (match p.name with
   | some n =>
     if 50 < n.length then
       [("name", "Ensure this field has no more than 50 characters.")]
     else []
   | none => []) ++
  (match p.gender with
   | some g =>
     if 50 < g.length then
       [("gender", "Ensure this field has no more than 50 characters.")]
     else []
   | none =>
     if allowMissing then [] else [("gender", "This field is required.")])

/-- `serializer.save()` on a valid create: persist a new row with
server-assigned `id` and both timestamps stamped `auto_now_add` /
`auto_now` at the current instant; the clock then moves past this
request. -/
def applyCreate (s : Store) (p : Payload) : Store × Person :=
  let r : Person :=
    { id := s.nextId, name := p.name, age := p.age,
      gender := p.gender.getD "", created_at := s.now, updated_at := s.now }
  ({ records := s.records ++ [r], nextId := s.nextId + 1, now := s.now + 1 }, r)

/-- The HTTP response to a create request: status, created record (on
success), field-error mapping (on failure). -/
structure PostResponse where
  status : Nat
  record : Option Person
  errors : List (String × String)
deriving DecidableEq

/-- `PersonList.post` in `core/views.py`: build the serializer from the
request data; if valid, save and answer 201 with the record, else answer
400 with `serializer.errors`. -/
def postPerson (s : Store) (p : Payload) : Store × PostResponse :=
  let errs := validatePayload false p
  if errs = [] then
    let sr := applyCreate s p
    (sr.1, { status := 201, record := some sr.2, errors := [] })
  else
    (s, { status := 400, record := none, errors := errs })

/-- `PersonList.get` in `core/views.py`: serialize `Person.objects.all()`
and answer 200; the store is not modified. -/
def getPerson (s : Store) : Store × Nat × List Person :=
  (s, 200, s.records)

/-- Modelled from the spec: the `list` action of the `AnotherList`
`ModelViewSet` routed at `GET /person2/` (the viewset's handlers are
framework defaults, §6: "200, list (identical shape, generic collection
route)"), over `queryset = Person.objects.all()`. -/
def getPerson2 (s : Store) : Store × Nat × List Person :=
  (s, 200, s.records)

/-- Modelled from the spec: the `create` action of `AnotherList` routed
at `POST /person2/` (§6: "201 or 400, same shape as above"), using the
same `PersonSerializer`. -/
def postPerson2 (s : Store) (p : Payload) : Store × PostResponse :=
  let errs := validatePayload false p
  if errs = [] then
    let sr := applyCreate s p
    (sr.1, { status := 201, record := some sr.2, errors := [] })
  else
    (s, { status := 400, record := none, errors := errs })

/-- Look a row up by primary key (`Person.objects.get(pk=i)` /
`get_object`). -/
def findPerson (s : Store) (i : Nat) : Option Person :=
  s.records.find? (fun r => r.id = i)

/-- Modelled from the spec: the `retrieve` action of `AnotherList`
(`GET /person2/{id}/`), §6: standard single-resource semantics, 404 if
the id is unknown, else 200 with the row. -/
def getPersonDetail (s : Store) (i : Nat) : Nat × Option Person :=
  match findPerson s i with
  | some r => (200, some r)
  | none => (404, none)

/-- Overwrite the fields a payload carries, keep the others, and restamp
`updated_at` (`auto_now`) at the current instant. -/
def applyFields (r : Person) (p : Payload) (t : Nat) : Person :=
  { r with
    name := match p.name with | some n => some n | none => r.name
    age := match p.age with | some a => some a | none => r.age
    gender := match p.gender with | some g => g | none => r.gender
    updated_at := t }

/-- Modelled from the spec: the `partial_update` action of `AnotherList`
(`PATCH /person2/{id}/`), §6: 404 if the id is unknown; otherwise the
present fields are validated and saved, absent fields are left
unchanged, and `updated_at` is refreshed by `auto_now`. -/
def patchPerson (s : Store) (i : Nat) (p : Payload) :
    Store × Nat × Option Person :=
  match findPerson s i with
  | none => (s, 404, none)
  | some r =>
    if validatePayload true p = [] then
      let r2 := applyFields r p s.now
      ({ s with
         records := s.records.map (fun q => if q.id = i then r2 else q)
         now := s.now + 1 },
       200, some r2)
    else (s, 400, none)

/-- Modelled from the spec: the `update` action of `AnotherList`
(`PUT /person2/{id}/`), §6: 404 if the id is unknown; otherwise a full
validation (all required fields must be present) and save. -/
def putPerson (s : Store) (i : Nat) (p : Payload) :
    Store × Nat × Option Person :=
  match findPerson s i with
  | none => (s, 404, none)
  | some r =>
    if validatePayload false p = [] then
      let r2 := applyFields r p s.now
      ({ s with
         records := s.records.map (fun q => if q.id = i then r2 else q)
         now := s.now + 1 },
       200, some r2)
    else (s, 400, none)

/-- Modelled from the spec: the `destroy` action of `AnotherList`
(`DELETE /person2/{id}/`), §6: 404 if the id is unknown, else the row is
removed and the answer is 204. -/
def deletePerson (s : Store) (i : Nat) : Store × Nat :=
  match findPerson s i with
  | none => (s, 404)
  | some _ =>
    ({ s with
       records := s.records.filter (fun r => r.id ≠ i)
       now := s.now + 1 },
     204)

/-- One HTTP write request against the store (reads leave it unchanged). -/
inductive Step : Store → Store → Prop where
  | post (s : Store) (p : Payload) : Step s (postPerson s p).1
  | post2 (s : Store) (p : Payload) : Step s (postPerson2 s p).1
  | put (s : Store) (i : Nat) (p : Payload) : Step s (putPerson s i p).1
  | patch (s : Store) (i : Nat) (p : Payload) : Step s (patchPerson s i p).1
  | del (s : Store) (i : Nat) : Step s (deletePerson s i).1

/-- The store `t` is obtainable from `s` by a sequence of requests. -/
inductive Reaches : Store → Store → Prop where
  | refl (s : Store) : Reaches s s
  | tail {s t u : Store} : Reaches s t → Step t u → Reaches s u

/-- A store state the running application can be in. -/
def Reachable (s : Store) : Prop := Reaches Store.empty s

/-- The store invariant: every row's `created_at` is at most its
`updated_at`, timestamps lie strictly before the clock, and ids lie
strictly below the primary-key counter. -/
def StoreInv (s : Store) : Prop :=
  ∀ r ∈ s.records, r.created_at ≤ r.updated_at ∧ r.updated_at < s.now ∧
    r.id < s.nextId

/-- The id `i` resolves to no row and lies below the primary-key
counter, so it can never be assigned again. -/
def Gone (s : Store) (i : Nat) : Prop :=
  i < s.nextId ∧ ∀ r ∈ s.records, r.id ≠ i

/-- `Person.__str__` in `core/models.py` returns `self.name`; since
`name` is nullable, the value handed back is `None` rather than a
string when the row was created without a name. -/
def personStr (r : Person) : Option String := r.name

lemma findPerson_eq_none_iff (s : Store) (i : Nat) :
    findPerson s i = none ↔ ∀ r ∈ s.records, r.id ≠ i := by
  simp [findPerson, List.find?_eq_none]

lemma findPerson_some {s : Store} {i : Nat} {r : Person}
    (h : findPerson s i = some r) : r ∈ s.records ∧ r.id = i := by
  refine ⟨List.mem_of_find?_eq_some h, ?_⟩
  have := List.find?_some h
  simpa using this

lemma storeInv_empty : StoreInv Store.empty := by
  intro r hr
  simp [Store.empty] at hr

lemma storeInv_post {s : Store} (p : Payload) (h : StoreInv s) :
    StoreInv (postPerson s p).1 := by
  by_cases hv : validatePayload false p = []
  · intro r hr
    simp [postPerson, hv, applyCreate] at hr
    rcases hr with hr | hr
    · rcases h r hr with ⟨h1, h2, h3⟩
      simp [postPerson, hv, applyCreate]
      exact ⟨h1, Nat.lt_succ_of_lt h2, Nat.lt_succ_of_lt h3⟩
    · subst hr
      simp [postPerson, hv, applyCreate]
  · simpa [postPerson, hv] using h

lemma storeInv_post2 {s : Store} (p : Payload) (h : StoreInv s) :
    StoreInv (postPerson2 s p).1 := by
  by_cases hv : validatePayload false p = []
  · intro r hr
    simp [postPerson2, hv, applyCreate] at hr
    rcases hr with hr | hr
    · rcases h r hr with ⟨h1, h2, h3⟩
      simp [postPerson2, hv, applyCreate]
      exact ⟨h1, Nat.lt_succ_of_lt h2, Nat.lt_succ_of_lt h3⟩
    · subst hr
      simp [postPerson2, hv, applyCreate]
  · simpa [postPerson2, hv] using h

lemma storeInv_patch {s : Store} (i : Nat) (p : Payload) (h : StoreInv s) :
    StoreInv (patchPerson s i p).1 := by
  unfold patchPerson
  cases hf : findPerson s i with
  | none => simpa using h
  | some r0 =>
    by_cases hv : validatePayload true p = []
    · simp only [hv, if_pos]
      intro r hr
      simp at hr
      rcases hr with ⟨q, hq, hqr⟩
      rcases h q hq with ⟨h1, h2, h3⟩
      by_cases hid : q.id = i
      · simp [hid] at hqr
        subst hqr
        rcases h r0 (findPerson_some hf).1 with ⟨g1, g2, g3⟩
        refine ⟨?_, ?_, ?_⟩
        · simp [applyFields]
          exact le_of_lt (lt_of_le_of_lt g1 g2)
        · simp [applyFields]
        · simpa [applyFields] using g3
      · simp [hid] at hqr
        subst hqr
        exact ⟨h1, Nat.lt_succ_of_lt h2, h3⟩
    · simp only [hv]
      simpa using h

lemma storeInv_put {s : Store} (i : Nat) (p : Payload) (h : StoreInv s) :
    StoreInv (putPerson s i p).1 := by
  unfold putPerson
  cases hf : findPerson s i with
  | none => simpa using h
  | some r0 =>
    by_cases hv : validatePayload false p = []
    · simp only [hv, if_pos]
      intro r hr
      simp at hr
      rcases hr with ⟨q, hq, hqr⟩
      rcases h q hq with ⟨h1, h2, h3⟩
      by_cases hid : q.id = i
      · simp [hid] at hqr
        subst hqr
        rcases h r0 (findPerson_some hf).1 with ⟨g1, g2, g3⟩
        refine ⟨?_, ?_, ?_⟩
        · simp [applyFields]
          exact le_of_lt (lt_of_le_of_lt g1 g2)
        · simp [applyFields]
        · simpa [applyFields] using g3
      · simp [hid] at hqr
        subst hqr
        exact ⟨h1, Nat.lt_succ_of_lt h2, h3⟩
    · simp only [hv]
      simpa using h

lemma storeInv_del {s : Store} (i : Nat) (h : StoreInv s) :
    StoreInv (deletePerson s i).1 := by
  unfold deletePerson
  cases hf : findPerson s i with
  | none => simpa using h
  | some r0 =>
    intro r hr
    simp at hr
    rcases h r hr.1 with ⟨h1, h2, h3⟩
    exact ⟨h1, Nat.lt_succ_of_lt h2, h3⟩

lemma storeInv_step {s t : Store} (hstep : Step s t) (h : StoreInv s) :
    StoreInv t := by
  cases hstep with
  | post p => exact storeInv_post p h
  | post2 p => exact storeInv_post2 p h
  | put i p => exact storeInv_put i p h
  | patch i p => exact storeInv_patch i p h
  | del i => exact storeInv_del i h

lemma storeInv_reaches {s t : Store} (hr : Reaches s t) (h : StoreInv s) :
    StoreInv t := by
  induction hr with
  | refl => exact h
  | tail _ hstep ih => exact storeInv_step hstep ih

lemma storeInv_reachable {s : Store} (h : Reachable s) : StoreInv s :=
  storeInv_reaches h storeInv_empty

lemma gone_findPerson_none {s : Store} {i : Nat} (h : Gone s i) :
    findPerson s i = none :=
  (findPerson_eq_none_iff s i).mpr h.2

lemma gone_post {s : Store} {i : Nat} (p : Payload) (h : Gone s i) :
    Gone (postPerson s p).1 i := by
  by_cases hv : validatePayload false p = []
  · refine ⟨?_, ?_⟩
    · simp [postPerson, hv, applyCreate]
      exact Nat.lt_succ_of_lt h.1
    · intro r hr
      simp [postPerson, hv, applyCreate] at hr
      rcases hr with hr | hr
      · exact h.2 r hr
      · subst hr
        exact Nat.ne_of_gt h.1
  · simpa [postPerson, hv] using h

lemma gone_post2 {s : Store} {i : Nat} (p : Payload) (h : Gone s i) :
    Gone (postPerson2 s p).1 i := by
  by_cases hv : validatePayload false p = []
  · refine ⟨?_, ?_⟩
    · simp [postPerson2, hv, applyCreate]
      exact Nat.lt_succ_of_lt h.1
    · intro r hr
      simp [postPerson2, hv, applyCreate] at hr
      rcases hr with hr | hr
      · exact h.2 r hr
      · subst hr
        exact Nat.ne_of_gt h.1
  · simpa [postPerson2, hv] using h

lemma gone_patch {s : Store} {i : Nat} (j : Nat) (p : Payload)
    (h : Gone s i) : Gone (patchPerson s j p).1 i := by
  unfold patchPerson
  cases hf : findPerson s j with
  | none => simpa using h
  | some r0 =>
    by_cases hv : validatePayload true p = []
    · simp only [hv, if_pos]
      refine ⟨h.1, ?_⟩
      intro r hr
      simp at hr
      rcases hr with ⟨q, hq, hqr⟩
      by_cases hid : q.id = j
      · simp [hid] at hqr
        subst hqr
        have : r0.id = j := (findPerson_some hf).2
        simpa [applyFields, this] using h.2 r0 (findPerson_some hf).1
      · simp [hid] at hqr
        subst hqr
        exact h.2 q hq
    · simp only [hv]
      simpa using h

lemma gone_put {s : Store} {i : Nat} (j : Nat) (p : Payload)
    (h : Gone s i) : Gone (putPerson s j p).1 i := by
  unfold putPerson
  cases hf : findPerson s j with
  | none => simpa using h
  | some r0 =>
    by_cases hv : validatePayload false p = []
    · simp only [hv, if_pos]
      refine ⟨h.1, ?_⟩
      intro r hr
      simp at hr
      rcases hr with ⟨q, hq, hqr⟩
      by_cases hid : q.id = j
      · simp [hid] at hqr
        subst hqr
        have : r0.id = j := (findPerson_some hf).2
        simpa [applyFields, this] using h.2 r0 (findPerson_some hf).1
      · simp [hid] at hqr
        subst hqr
        exact h.2 q hq
    · simp only [hv]
      simpa using h

lemma gone_del {s : Store} {i : Nat} (j : Nat) (h : Gone s i) :
    Gone (deletePerson s j).1 i := by
  unfold deletePerson
  cases hf : findPerson s j with
  | none => simpa using h
  | some r0 =>
    refine ⟨h.1, ?_⟩
    intro r hr
    simp at hr
    exact h.2 r hr.1

lemma gone_step {s t : Store} {i : Nat} (hstep : Step s t) (h : Gone s i) :
    Gone t i := by
  cases hstep with
  | post p => exact gone_post p h
  | post2 p => exact gone_post2 p h
  | put j p => exact gone_put j p h
  | patch j p => exact gone_patch j p h
  | del j => exact gone_del j h

lemma gone_reaches {s t : Store} {i : Nat} (hr : Reaches s t)
    (h : Gone s i) : Gone t i := by
  induction hr with
  | refl => exact h
  | tail _ hstep ih => exact gone_step hstep ih

lemma validatePayload_false_eq_nil_iff (p : Payload) :
    validatePayload false p = [] ↔
      (∀ n, p.name = some n → n.length ≤ 50) ∧
      (∃ g, p.gender = some g ∧ g.length ≤ 50) := by
  cases hn : p.name with
  | none =>
    cases hg : p.gender with
    | none => simp [validatePayload, hn, hg]
    | some g =>
      by_cases hl : 50 < g.length
      · simp [validatePayload, hn, hg, hl, Nat.not_le_of_lt hl]
      · simp [validatePayload, hn, hg, hl, Nat.le_of_not_lt hl]
  | some n =>
    cases hg : p.gender with
    | none => simp [validatePayload, hn, hg]
    | some g =>
      by_cases hln : 50 < n.length
      · simp [validatePayload, hn, hg, hln, Nat.not_le_of_lt hln]
      · by_cases hlg : 50 < g.length
        · simp [validatePayload, hn, hg, hln, hlg, Nat.not_le_of_lt hlg]
        · simp [validatePayload, hn, hg, hln, hlg, Nat.le_of_not_lt hln,
            Nat.le_of_not_lt hlg]

/-- C1: for every payload whose `gender` is a non-empty string of at
most 50 characters and whose `name`, if present, has at most 50
characters, `POST /person/` answers 201, the returned record's `gender`
equals the input's, and its `id` is the freshly assigned key, distinct
from the id of every record already in the store. -/
theorem C1_post_valid_creates (s : Store) (p : Payload) (g : String)
    (hg : p.gender = some g) (_hgne : g ≠ "") (hglen : g.length ≤ 50)
    (hname : ∀ n, p.name = some n → n.length ≤ 50)
    (hids : ∀ r ∈ s.records, r.id < s.nextId) :
    (postPerson s p).2.status = 201 ∧
    ∃ r, (postPerson s p).2.record = some r ∧ r.gender = g ∧
      r.id = s.nextId ∧ ∀ q ∈ s.records, q.id ≠ r.id := by
  have hv : validatePayload false p = [] :=
    (validatePayload_false_eq_nil_iff p).mpr ⟨hname, g, hg, hglen⟩
  refine ⟨by simp [postPerson, hv], ?_⟩
  refine ⟨(applyCreate s p).2, by simp [postPerson, hv], ?_, ?_, ?_⟩
  · simp [applyCreate, hg]
  · simp [applyCreate]
  · intro q hq
    simp [applyCreate]
    exact Nat.ne_of_lt (hids q hq)

/-- Witness for C1 at a concrete valid payload on the empty store. -/
theorem C1_post_valid_creates_witness :
    (postPerson Store.empty
      { name := none, age := none, gender := some "female" }).2.status = 201 :=
  (C1_post_valid_creates Store.empty
    { name := none, age := none, gender := some "female" } "female" rfl
    (by decide) (by decide) (by simp) (by simp [Store.empty])).1

/-- C2: a payload with no `gender` field creates nothing: the store is
unchanged, the status is 400, and the error mapping carries a `gender`
entry. -/
theorem C2_missing_gender_rejected (s : Store) (p : Payload)
    (hg : p.gender = none) :
    (postPerson s p).1 = s ∧ (postPerson s p).2.status = 400 ∧
    ∃ msg, ("gender", msg) ∈ (postPerson s p).2.errors := by
  have hv : validatePayload false p ≠ [] := by
    intro h
    rcases ((validatePayload_false_eq_nil_iff p).mp h).2 with ⟨g, hg2, _⟩
    rw [hg] at hg2
    exact Option.noConfusion hg2
  refine ⟨by simp [postPerson, hv], by simp [postPerson, hv], ?_⟩
  refine ⟨"This field is required.", ?_⟩
  simp [postPerson, hv, validatePayload, hg]

/-- Witness for C2 at a concrete gender-less payload. -/
theorem C2_missing_gender_rejected_witness :
    (postPerson Store.empty
      { name := some "bob", age := some 7, gender := none }).2.status = 400 :=
  (C2_missing_gender_rejected Store.empty
    { name := some "bob", age := some 7, gender := none } rfl).2.1

/-- C3: `GET /person/` always answers 200 with exactly the records in
the store, and every record a successful `POST /person/` returned is in
the result set of a subsequent `GET /person/`. -/
theorem C3_get_lists_all_records :
    (∀ s : Store, (getPerson s).2.1 = 200 ∧ (getPerson s).2.2 = s.records) ∧
    (∀ (s : Store) (p : Payload) (r : Person),
      (postPerson s p).2.record = some r →
      r ∈ (getPerson (postPerson s p).1).2.2) := by
  refine ⟨fun s => ⟨rfl, rfl⟩, ?_⟩
  intro s p r hr
  by_cases hv : validatePayload false p = []
  · simp [postPerson, hv] at hr
    simp [postPerson, hv, getPerson, applyCreate]
    right
    exact hr.symm
  · simp [postPerson, hv] at hr

/-- Witness for C3 with a concrete record created on the empty store. -/
theorem C3_get_lists_all_records_witness :
    ({ id := 1, name := none, age := none, gender := "f", created_at := 1,
       updated_at := 1 } : Person) ∈
      (getPerson (postPerson Store.empty
        { name := none, age := none, gender := some "f" }).1).2.2 :=
  C3_get_lists_all_records.2 Store.empty
    { name := none, age := none, gender := some "f" } _ (by decide)

/-- C4: a record just created by `POST /person/` has
`created_at = updated_at`, and in every reachable store state every
record satisfies `created_at ≤ updated_at`. -/
theorem C4_created_le_updated :
    (∀ (s : Store) (p : Payload) (r : Person),
      (postPerson s p).2.record = some r → r.created_at = r.updated_at) ∧
    (∀ s : Store, Reachable s →
      ∀ r ∈ s.records, r.created_at ≤ r.updated_at) := by
  constructor
  · intro s p r hr
    by_cases hv : validatePayload false p = []
    · simp [postPerson, hv] at hr
      rw [← hr]
      simp [applyCreate]
    · simp [postPerson, hv] at hr
  · intro s hs r hr
    exact (storeInv_reachable hs r hr).1

/-- Witness for C4 on the store reached by one concrete creation. -/
theorem C4_created_le_updated_witness :
    ({ id := 1, name := none, age := none, gender := "x", created_at := 1,
       updated_at := 1 } : Person).created_at ≤
    ({ id := 1, name := none, age := none, gender := "x", created_at := 1,
       updated_at := 1 } : Person).updated_at :=
  C4_created_le_updated.2
    (postPerson Store.empty { name := none, age := none, gender := some "x" }).1
    (Reaches.tail (Reaches.refl _) (Step.post _ _)) _ (by decide)

/-- C5: `PATCH /person2/{id}/` with body `{age: 42}` on an existing
record answers 200 and sets `age` to 42, leaves `name` and `gender`
unchanged, and moves `updated_at` strictly past its previous value. -/
theorem C5_patch_updates_only_age (s : Store) (i : Nat) (r : Person)
    (hs : Reachable s) (hf : findPerson s i = some r) :
    (patchPerson s i { name := none, age := some 42, gender := none }).2.1
      = 200 ∧
    ∃ r2,
      (patchPerson s i { name := none, age := some 42, gender := none }).2.2
        = some r2 ∧
      r2.age = some 42 ∧ r2.name = r.name ∧ r2.gender = r.gender ∧
      r.updated_at < r2.updated_at := by
  have hv : validatePayload true
      { name := none, age := some 42, gender := none } = [] := rfl
  have hup : r.updated_at < s.now :=
    (storeInv_reachable hs r (findPerson_some hf).1).2.1
  refine ⟨by simp [patchPerson, hf, hv], ?_⟩
  refine ⟨applyFields r { name := none, age := some 42, gender := none } s.now,
    by simp [patchPerson, hf, hv], ?_, ?_, ?_, ?_⟩
  · simp [applyFields]
  · simp [applyFields]
  · simp [applyFields]
  · simpa [applyFields] using hup

/-- Witness for C5: patch the single record of a store reached by one
creation. -/
theorem C5_patch_updates_only_age_witness :
    (patchPerson
      (postPerson Store.empty
        { name := none, age := none, gender := some "x" }).1 1
      { name := none, age := some 42, gender := none }).2.1 = 200 :=
  (C5_patch_updates_only_age _ 1
    { id := 1, name := none, age := none, gender := "x", created_at := 1,
      updated_at := 1 }
    (Reaches.tail (Reaches.refl _) (Step.post _ _)) (by decide)).1

/-- C6: deleting an existing id answers 204 and removes the record;
after any further sequence of requests, `GET /person2/{id}/` for that id
answers 404 (primary keys are never reassigned); and every
single-resource operation on an unknown id answers 404. -/
theorem C6_delete_then_404 (s : Store) (i : Nat)
    (hids : ∀ r ∈ s.records, r.id < s.nextId)
    (hf : (findPerson s i).isSome) :
    (deletePerson s i).2 = 204 ∧
    (∀ t, Reaches (deletePerson s i).1 t → (getPersonDetail t i).1 = 404) ∧
    (∀ (s' : Store) (j : Nat) (p : Payload), findPerson s' j = none →
      (getPersonDetail s' j).1 = 404 ∧ (putPerson s' j p).2.1 = 404 ∧
      (patchPerson s' j p).2.1 = 404 ∧ (deletePerson s' j).2 = 404) := by
  rcases Option.isSome_iff_exists.mp hf with ⟨r, hr⟩
  have hri := findPerson_some hr
  have hlt : i < s.nextId := hri.2 ▸ hids r hri.1
  refine ⟨by simp [deletePerson, hr], ?_, ?_⟩
  · intro t ht
    have hgone : Gone (deletePerson s i).1 i := by
      refine ⟨by simpa [deletePerson, hr] using hlt, ?_⟩
      intro q hq
      simp [deletePerson, hr] at hq
      exact hq.2
    have hnone := gone_findPerson_none (gone_reaches ht hgone)
    simp [getPersonDetail, hnone]
  · intro s' j p hnone
    exact ⟨by simp [getPersonDetail, hnone], by simp [putPerson, hnone],
      by simp [patchPerson, hnone], by simp [deletePerson, hnone]⟩

/-- Witness for C6: delete the single record of a store reached by one
creation. -/
theorem C6_delete_then_404_witness :
    (deletePerson
      (postPerson Store.empty
        { name := none, age := none, gender := some "x" }).1 1).2 = 204 :=
  (C6_delete_then_404 _ 1 (by decide) (by decide)).1

/-- C7: `GET /person/` is a read-only, deterministic function of the
store: it leaves the store unchanged, so two consecutive calls with no
intervening writes return identical status and result set. -/
theorem C7_get_idempotent (s : Store) :
    (getPerson s).1 = s ∧ (getPerson (getPerson s).1).2 = (getPerson s).2 :=
  ⟨rfl, rfl⟩

/-- C8: a payload whose `name` or `gender` exceeds 50 characters is
rejected with 400, a per-field message and no persisted record; and no
other constraint applies: creation succeeds exactly when `name` (if
present) fits in 50 characters and `gender` is present and fits in 50
characters. -/
theorem C8_overlong_rejected (s : Store) (p : Payload) :
    (((∃ n, p.name = some n ∧ 50 < n.length) ∨
      (∃ g, p.gender = some g ∧ 50 < g.length)) →
      (postPerson s p).2.status = 400 ∧ (postPerson s p).1 = s ∧
      ((∃ n, p.name = some n ∧ 50 < n.length) →
        ("name", "Ensure this field has no more than 50 characters.") ∈
          (postPerson s p).2.errors) ∧
      ((∃ g, p.gender = some g ∧ 50 < g.length) →
        ("gender", "Ensure this field has no more than 50 characters.") ∈
          (postPerson s p).2.errors)) ∧
    ((postPerson s p).2.status = 201 ↔
      (∀ n, p.name = some n → n.length ≤ 50) ∧
      (∃ g, p.gender = some g ∧ g.length ≤ 50)) := by
  by_cases hv : validatePayload false p = []
  · rcases (validatePayload_false_eq_nil_iff p).mp hv with ⟨hname, g', hg', hlen'⟩
    constructor
    · rintro (⟨n, hn, hlen⟩ | ⟨g, hg, hlen⟩)
      · exact absurd (hname n hn) (Nat.not_le_of_lt hlen)
      · have : g = g' := Option.some.inj (hg.symm.trans hg')
        subst this
        exact absurd hlen' (Nat.not_le_of_lt hlen)
    · simp [postPerson, hv]
      exact ⟨hname, g', hg', hlen'⟩
  · have hR : ¬ ((∀ n, p.name = some n → n.length ≤ 50) ∧
        (∃ g, p.gender = some g ∧ g.length ≤ 50)) :=
      fun h => hv ((validatePayload_false_eq_nil_iff p).mpr h)
    refine ⟨?_, by simp [postPerson, hv, hR]⟩
    intro _
    refine ⟨by simp [postPerson, hv], by simp [postPerson, hv], ?_, ?_⟩
    · rintro ⟨n, hn, hlen⟩
      simp [postPerson, hv, validatePayload, hn, hlen]
    · rintro ⟨g, hg, hlen⟩
      simp [postPerson, hv, validatePayload, hg, hlen]

/-- Witness for C8: a 51-character name is rejected. -/
theorem C8_overlong_rejected_witness :
    (postPerson Store.empty
      { name := some (String.mk (List.replicate 51 'a')), age := none,
        gender := some "x" }).2.status = 400 :=
  ((C8_overlong_rejected Store.empty
    { name := some (String.mk (List.replicate 51 'a')), age := none,
      gender := some "x" }).1
    (Or.inl ⟨String.mk (List.replicate 51 'a'), rfl, by decide⟩)).1

/-- C9: the dedicated `/person/` handler and the generically routed
`/person2/` collection endpoint expose the same list and create
behaviour: identical status, result set and post-state on every store
and payload. -/
theorem C9_endpoints_equivalent (s : Store) (p : Payload) :
    getPerson s = getPerson2 s ∧ postPerson s p = postPerson2 s p :=
  ⟨rfl, rfl⟩

/-- C10: `Person.__str__` returns the nullable `name` field, so every
record created without a name yields `None` instead of a string, and
such a record is reachable. -/
theorem C10_str_of_nameless_is_none :
    (∀ (s : Store) (p : Payload) (r : Person), p.name = none →
      (postPerson s p).2.record = some r → personStr r = none) ∧
    (∃ s : Store, Reachable s ∧ ∃ r ∈ s.records, personStr r = none) := by
  constructor
  · intro s p r hn hr
    by_cases hv : validatePayload false p = []
    · simp [postPerson, hv] at hr
      rw [← hr]
      simp [applyCreate, personStr, hn]
    · simp [postPerson, hv] at hr
  · refine ⟨(postPerson Store.empty
      { name := none, age := none, gender := some "y" }).1,
      Reaches.tail (Reaches.refl _) (Step.post _ _), ?_⟩
    exact ⟨{ id := 1, name := none, age := none, gender := "y",
             created_at := 1, updated_at := 1 }, by decide, rfl⟩

/-- Witness for C10: the record created from a nameless payload
stringifies to `none`. -/
theorem C10_str_of_nameless_is_none_witness :
    personStr { id := 1, name := none, age := none, gender := "y",
                created_at := 1, updated_at := 1 } = none :=
  C10_str_of_nameless_is_none.1 Store.empty
    { name := none, age := none, gender := some "y" }
    { id := 1, name := none, age := none, gender := "y", created_at := 1,
      updated_at := 1 } rfl (by decide)
